import Mathlib

/-!
Verification development for the kro-crm-app continuous capture /
segmentation / processing pipeline.

Part 1 shallowly embeds the recording-session and VAD state machine of
`src/components/Queue/QueueCommands.tsx` (refs become fields of an explicit
`SessionState`; `performance.now()` timestamps and RMS values become
rationals; the `MediaRecorder` becomes an explicit `Option RecState` slot).

Part 2 shallowly embeds the backend audio pipeline of
`electron/LLMHelper.ts` (`analyzeAudioFromBase64`): external effects
(ffmpeg invocations, the whisper.cpp run, the sidecar file read, the
Ollama HTTP call, unlink results) are supplied by an explicit environment
record, and the function's control flow is reproduced over it.
-/

namespace KroCrm

/-- The `MediaRecorder.state` values which the component branches on
(`rec.state === "recording"`, `rec.state !== "inactive"`). -/
inductive RecState
  | recording
  | inactive
deriving DecidableEq, Repr

/-- One accumulated audio chunk (from `ondataavailable`); the payload is
irrelevant to the claims, an identifier suffices. -/
abbrev Chunk := Nat

/-- The mutable refs of the `QueueCommands` component gathered in a single
record: `sessionActiveRef`, `streamRef` (presence only), `mediaRecorderRef`,
`chunks`, `stopInFlightRef`, `isSpeakingRef`, `silenceStartRef`,
`noiseFloorRef`.  Timestamps and RMS values are rationals. -/
structure SessionState where
  sessionActive : Bool
  streamPresent : Bool
  recorder : Option RecState
  chunks : List Chunk
  stopInFlight : Bool
  isSpeaking : Bool
  silenceStart : Option ℚ
  noiseFloor : Option ℚ
deriving DecidableEq, Repr

/-- Tunables of the component (`SILENCE_DURATION_MS = 1500`). -/
def SILENCE_DURATION_MS : ℚ := 1500

/-- `CALIBRATION_MS = 800`. -/
def CALIBRATION_MS : ℚ := 800

/-- `MIN_THRESHOLD_RMS = 0.002`. -/
def MIN_THRESHOLD_RMS : ℚ := 2 / 1000

/-- `NOISE_MULTIPLIER = 2.0`. -/
def NOISE_MULTIPLIER : ℚ := 2

/-- `sendAudioForAnalysis`: returns early when `chunks.current.length === 0`;
otherwise builds the blob from the accumulated chunks (handing it to the
analysis pipeline) and clears `chunks.current`.  The second component is the
segment dispatched, if any. -/
def sendAudioForAnalysis (s : SessionState) : SessionState × Option (List Chunk) :=
  if s.chunks = [] then (s, none)
  else ({ s with chunks := [] }, some s.chunks)

/-- The `recorder.onstop` handler installed by `createMediaRecorder`:
if chunks accumulated, `sendAudioForAnalysis` dispatches them; then (in the
`finally` block) if the session is still active and the stream is present,
the chunk buffer is cleared and a replacement recorder is created and
started (its `onstart` resets `stopInFlight`, `isSpeaking`, `silenceStart`);
otherwise the recorder slot is set to `null`.  The second component lists
the segments dispatched during the callback. -/
def recorderOnStop (s : SessionState) : SessionState × List (List Chunk) :=
  let step := if s.chunks ≠ [] then sendAudioForAnalysis s else (s, none)
  let s1 := step.1
  let dispatched := step.2.toList
  if s1.sessionActive && s1.streamPresent then
    ({ s1 with chunks := [],
               recorder := some RecState.recording,
               stopInFlight := false,
               isSpeaking := false,
               silenceStart := none }, dispatched)
  else
    ({ s1 with recorder := none }, dispatched)

/-- `handleManualFlush`: a no-op unless a recorder exists in state
`"recording"` and no stop is in flight; otherwise it sets `stopInFlight`
and stops the recorder (`rec.stop()` moves the `MediaRecorder` to
`"inactive"` and schedules exactly one `onstop` finalize callback).
The second component records whether a stop was issued. -/
def handleManualFlush (s : SessionState) : SessionState × Bool :=
  match s.recorder with
  | none => (s, false)
  | some r =>
    if r ≠ RecState.recording then (s, false)
    else if s.stopInFlight then (s, false)
    else ({ s with stopInFlight := true, recorder := some RecState.inactive }, true)

/-- Number of recorder stops issued by two back-to-back manual flushes
(the second issued while any `stopInFlight` set by the first is still
true, i.e. before the `onstop` finalize callback has run). -/
def stopsAfterTwoFlushes (s : SessionState) : Nat :=
  let r1 := handleManualFlush s
  let r2 := handleManualFlush r1.1
  (cond r1.2 1 0) + (cond r2.2 1 0)

/-- The calibration-window noise-floor update at the top of the meter
tick: while `now - startTs < CALIBRATION_MS` the tick's RMS sample is
folded in by `noiseFloor * 0.9 + rms * 0.1` (the first in-window sample
initializes the floor); outside the window the floor is left unchanged. -/
def calibrateNF (startTs now rms : ℚ) (nf : Option ℚ) : Option ℚ :=
  if now - startTs < CALIBRATION_MS then
    some (match nf with
          | none => rms
          | some old => old * (9 / 10) + rms * (1 / 10))
  else nf

/-- The effective decision threshold of a tick:
`Math.max(MIN_THRESHOLD_RMS, (noiseFloor ?? 0.001) * NOISE_MULTIPLIER)`. -/
def effThreshold (nf : Option ℚ) : ℚ :=
  max MIN_THRESHOLD_RMS (nf.getD (1 / 1000) * NOISE_MULTIPLIER)

/-- One iteration of the `tick` closure in `startMeterLoop`, given the
session start timestamp, the current time and the tick's RMS value.
Mirrors the source: noise-floor calibration, threshold computation, then
the speaking/silence branches; on ≥ `SILENCE_DURATION_MS` of armed
silence the recorder is stopped provided no stop is in flight and the
recorder is `"recording"`.  The second component records whether a stop
was requested this tick. -/
def meterTick (startTs now rms : ℚ) (s : SessionState) : SessionState × Bool :=
  let nf := calibrateNF startTs now rms s.noiseFloor
  let threshold := effThreshold nf
  let s1 := { s with noiseFloor := nf }
  if threshold < rms then
    ({ s1 with isSpeaking := true, silenceStart := none }, false)
  else if s1.isSpeaking then
    match s1.silenceStart with
    | none => ({ s1 with silenceStart := some now }, false)
    | some t0 =>
      if SILENCE_DURATION_MS ≤ now - t0 then
        let doStop := !s1.stopInFlight && (s1.recorder == some RecState.recording)
        ({ s1 with silenceStart := none,
                   isSpeaking := false,
                   stopInFlight := s1.stopInFlight || doStop,
                   recorder := if doStop then some RecState.inactive else s1.recorder },
         doStop)
      else (s1, false)
  else (s1, false)

/-! ### Progressive reveal (`simulateLiveTranscription`)

The response text is modelled as a `List Char`; `revealStep` computes the
`adjustedIndex` of one `animateText` iteration from the current
`currentIndex`. -/

/-- `text.indexOf(' ', start)` over the character list: index of the first
occurrence of `c` at or after `start` (`none` for JavaScript's `-1`). -/
def indexOfAux (c : Char) : List Char → Nat → Option Nat
  | [], _ => none
  | x :: xs, k => if x = c then some k else indexOfAux c xs (k + 1)

/-- `indexOfFrom s c start = s.indexOf(c, start)`. -/
def indexOfFrom (s : List Char) (c : Char) (start : Nat) : Option Nat :=
  indexOfAux c (s.drop start) start

/-- `charsToAdd` of one animation step: 3 when more than 100 characters
remain, 2 when more than 50 remain, else 1. -/
def charsToAddAt (len i : Nat) : Nat :=
  if len - i > 100 then 3 else if len - i > 50 then 2 else 1

/-- `nextIndex = Math.min(currentIndex + charsToAdd, fullText.length)`:
the candidate cut point before any word-boundary adjustment. -/
def candidateIndex (s : List Char) (i : Nat) : Nat :=
  min (i + charsToAddAt s.length i) s.length

/-- The `adjustedIndex` computed by one `animateText` iteration: the
candidate cut, extended to the next space when `nextChar` exists and is
not a space, `currentChar` is not a space, and the next space lies fewer
than 10 characters past the candidate (`spaceIndex - nextIndex < 10`).
An out-of-range `nextChar` (`undefined`) is falsy, so no adjustment; an
out-of-range `currentChar` satisfies `currentChar !== ' '`. -/
def revealStep (s : List Char) (i : Nat) : Nat :=
  let charsToAdd := charsToAddAt s.length i
  let nextIndex := min (i + charsToAdd) s.length
  match s.get? nextIndex with
  | none => nextIndex
  | some nextChar =>
    if nextChar ≠ ' ' ∧ s.get? (i + charsToAdd - 1) ≠ some ' ' then
      match indexOfFrom s ' ' nextIndex with
      | some spaceIdx => if spaceIdx - nextIndex < 10 then spaceIdx else nextIndex
      | none => nextIndex
    else nextIndex

/-- The sequence of `currentIndex` values produced by iterating the
animation from 0; once the index reaches the text length the animation
completes and the index no longer advances. -/
def revealSeq (s : List Char) : Nat → Nat
  | 0 => 0
  | k + 1 =>
    let i := revealSeq s k
    if i < s.length then revealStep s i else i

/-- A revealed prefix length `a` ends mid-word: the boundary falls
strictly between two non-space characters. -/
def endsMidWord (s : List Char) (a : Nat) : Bool :=
  (match s.get? a with | some c => c ≠ ' ' | none => false) &&
  (match a with
   | 0 => false
   | b + 1 => match s.get? b with | some c => c ≠ ' ' | none => false)

/-- There is a following space fewer than 10 characters past `a`. -/
def spaceWithin10 (s : List Char) (a : Nat) : Bool :=
  match indexOfFrom s ' ' a with
  | some j => j - a < 10
  | none => false

/-- The reveal text of the spec's concrete scenario. -/
def helloText : List Char := "hello world testing".data

/-! ### Backend pipeline (`LLMHelper.analyzeAudioFromBase64`) -/

/-- `isPrefixOfChars pat s`: `pat` is an initial run of `s`. -/
def isPrefixOfChars : List Char → List Char → Bool
  | [], _ => true
  | _ :: _, [] => false
  | a :: as, b :: bs => a = b && isPrefixOfChars as bs

/-- `hasSubstrChars pat s`: `pat` occurs contiguously in `s`
(JavaScript's `String.prototype.includes`). -/
def hasSubstrChars (pat : List Char) : List Char → Bool
  | [] => isPrefixOfChars pat []
  | c :: cs => isPrefixOfChars pat (c :: cs) || hasSubstrChars pat cs

/-- `s.includes(pat)` on Lean strings. -/
def hasSubstr (pat s : String) : Bool :=
  hasSubstrChars pat.data s.data

/-- `line.startsWith('[')`. -/
def startsWithBracket (l : String) : Bool :=
  match l.data with
  | c :: _ => c = '['
  | [] => false

/-- JavaScript `String.prototype.trim`: strip leading and trailing
whitespace. -/
def jsTrim (s : String) : String :=
  String.mk (((s.data.dropWhile Char.isWhitespace).reverse.dropWhile
      Char.isWhitespace).reverse)

/-- A stdout line contributes to the transcription iff it is non-empty,
does not start with `[`, and contains neither `whisper_` nor `main:`
(the loop over `stdout.split('\n')`). -/
def keepLine (l : String) : Bool :=
  !(l == "") && !startsWithBracket l && !hasSubstr "whisper_" l && !hasSubstr "main:" l

/-- The accumulation `transcription += line + ' '` over the stdout lines,
restricted to kept lines. -/
def joinKeptLines : List String → String
  | [] => ""
  | l :: ls => (if keepLine l then l ++ " " else "") ++ joinKeptLines ls

/-- Transcription parsed from the whisper stdout lines: kept lines joined
with trailing spaces, then trimmed. -/
def parseStdout (lines : List String) : String :=
  jsTrim (joinKeptLines lines)

/-- Transcript selection: the sidecar `.txt` read throws when the file is
missing (`none`), in which case the stdout parse is used; when the read
succeeds, a truthy (non-empty) content replaces the stdout parse by its
trimmed value, while an empty content leaves the stdout parse in place. -/
def extractTranscript (stdoutLines : List String) (sidecar : Option String) : String :=
  let fromStdout := parseStdout stdoutLines
  match sidecar with
  | none => fromStdout
  | some content => if content ≠ "" then jsTrim content else fromStdout

/-- Global single-character replacement on the character list: the model
of `str.replace(/c/g, repl)` for a one-character pattern. -/
def replaceChar (t : Char) (r : List Char) : List Char → List Char
  | [] => []
  | c :: cs => (if c = t then r else [c]) ++ replaceChar t r cs

/-- The escaping chain applied to the transcription before embedding it
in the Ollama prompt: backslash first, then double quote, newline,
carriage return, tab. -/
def escapeChars (s : List Char) : List Char :=
  replaceChar '\t' ['\\', 't']
    (replaceChar '\r' ['\\', 'r']
      (replaceChar '\n' ['\\', 'n']
        (replaceChar '"' ['\\', '"']
          (replaceChar '\\' ['\\', '\\'] s))))

/-- The escaping on strings (`escapedTranscription` in the source). -/
def escapeTranscription (s : String) : String :=
  String.mk (escapeChars s.data)

/-- Per-character escaping table: what a single pass over the input
should produce when no character is double-escaped. -/
def escChar (c : Char) : List Char :=
  if c = '\\' then ['\\', '\\']
  else if c = '"' then ['\\', '"']
  else if c = '\n' then ['\\', 'n']
  else if c = '\r' then ['\\', 'r']
  else if c = '\t' then ['\\', 't']
  else [c]

/-- Modelled from the spec: a single left-to-right pass escaping each
character once — the behaviour the sequential `replace` chain must
refine for "no character is double-escaped" to hold. -/
def escapeOnePass : List Char → List Char
  | [] => []
  | c :: cs => escChar c ++ escapeOnePass cs

/-- The `systemPrompt` field of `LLMHelper`. -/
def systemPrompt : String :=
  "You are Wingman AI, a helpful, proactive assistant for any kind of problem or situation (not just coding). For any user input, analyze the situation, provide a clear problem statement, relevant context, and suggest several possible responses or actions the user could take next. Always explain your reasoning. Present your suggestions as a list of options or next steps."

/-- The Ollama prompt built around the escaped transcription. -/
def ollamaPrompt (transcription : String) : String :=
  systemPrompt ++ "\n\nAudio transcription: \"" ++ escapeTranscription transcription
    ++ "\"\n\n Provide a suggestion to the users question."

/-- Which converted audio file ends up as `processPath`. -/
inductive AudioFile
  | original
  | boosted
  | simple
deriving DecidableEq, Repr

/-- Outcome of the conversion stage: the chosen `processPath` and whether
the simplified fallback command was attempted. -/
structure ConvResult where
  processPath : AudioFile
  fallbackTried : Bool
deriving DecidableEq, Repr

/-- The temp files touched by one `analyzeAudioFromBase64` run. -/
inductive TmpFile
  | audioOrig
  | audioBoosted
  | audioSimple
  | payload
  | sidecarTxt
deriving DecidableEq, Repr

/-- Pipeline-aborting failures: the whisper invocation throwing, or the
Ollama request / JSON parse throwing. -/
inductive PipeError
  | whisperFailed
  | ollamaFailed
deriving DecidableEq, Repr

/-- The external world of one `analyzeAudioFromBase64` run: results of
the ffmpeg invocations (exec success and output-file existence), the
whisper run (`some` stdout lines on success), the sidecar transcript file
contents (`none` when the read throws because the file is missing), the
parsed Ollama `response` field (`none` when curl or `JSON.parse` throws),
and which `unlink` calls would fail. -/
structure PipelineEnv where
  mimeType : String
  primaryExec : Bool
  primaryFile : Bool
  boostExec : Bool
  boostFile : Bool
  simpleExec : Bool
  simpleFile : Bool
  whisperOut : Option (List String)
  sidecar : Option String
  ollamaResp : Option String
  unlinkSidecarFails : Bool
  unlinkPayloadFails : Bool
  unlinkAudioFails : Bool

/-- The same environment with every `unlink` call failing. -/
def withFailingUnlinks (env : PipelineEnv) : PipelineEnv :=
  { env with unlinkSidecarFails := true, unlinkPayloadFails := true, unlinkAudioFails := true }

/-- `const ext = mimeType.includes('webm') ? 'webm' : 'wav'`. -/
def extOf (mimeType : String) : String :=
  if hasSubstr "webm" mimeType then "webm" else "wav"

/-- JavaScript `String.prototype.replace` with a string pattern: replace
only the first occurrence of `pat` (scanning left to right), leave the
string unchanged when `pat` does not occur. -/
def replaceOnceChars (pat repl : List Char) : List Char → List Char
  | [] => []
  | c :: cs =>
    if isPrefixOfChars pat (c :: cs) then repl ++ (c :: cs).drop pat.length
    else c :: replaceOnceChars pat repl cs

/-- `s.replace(pat, repl)` on Lean strings (first occurrence only). -/
def jsReplaceOnce (pat repl s : String) : String :=
  String.mk (replaceOnceChars pat.data repl.data s.data)

/-- `boostedWavPath = audioPath.replace('.' + ext, '_boosted.wav')`. -/
def boostedWavName (audioPath ext : String) : String :=
  jsReplaceOnce ("." ++ ext) "_boosted.wav" audioPath

/-- `simpleWavPath = audioPath.replace('.' + ext, '.wav')`. -/
def simpleWavName (audioPath ext : String) : String :=
  jsReplaceOnce ("." ++ ext) ".wav" audioPath

/-- `transcriptionFile = audioPath.replace('.' + ext, '.txt')`: the
sidecar transcript path is derived from the original audio temp file's
name, whatever file was actually transcribed. -/
def transcriptionFileName (audioPath ext : String) : String :=
  jsReplaceOnce ("." ++ ext) ".txt" audioPath

/-- The concrete file name behind each `processPath` outcome — the file
handed to the whisper invocation. -/
def processPathName (audioPath ext : String) : AudioFile → String
  | AudioFile.original => audioPath
  | AudioFile.boosted => boostedWavName audioPath ext
  | AudioFile.simple => simpleWavName audioPath ext

/-- The base name of a file path: everything before the last dot. -/
def baseNameOf (s : String) : String :=
  String.mk (((s.data.reverse.dropWhile fun c => c != '.').drop 1).reverse)

/-- The conversion block (lines 156–209 of `LLMHelper.ts`): for non-WAV
input the filtered convert command runs; if it throws or leaves no output
file, the catch block attempts the simplified command, falling back to
the original file if that fails too.  For WAV input only the volume boost
runs; a thrown boost lands in the same catch and attempts the simplified
command. -/
def convertStage (env : PipelineEnv) : ConvResult :=
  if extOf env.mimeType ≠ "wav" then
    if env.primaryExec && env.primaryFile then
      { processPath := AudioFile.boosted, fallbackTried := false }
    else if env.simpleExec && env.simpleFile then
      { processPath := AudioFile.simple, fallbackTried := true }
    else
      { processPath := AudioFile.original, fallbackTried := true }
  else
    if env.boostExec then
      if env.boostFile then
        { processPath := AudioFile.boosted, fallbackTried := false }
      else
        { processPath := AudioFile.original, fallbackTried := false }
    else if env.simpleExec && env.simpleFile then
      { processPath := AudioFile.simple, fallbackTried := true }
    else
      { processPath := AudioFile.original, fallbackTried := true }

/-- Trace of a successful `analyzeAudioFromBase64` run. -/
structure RunTrace where
  processPath : AudioFile
  fallbackTried : Bool
  transcription : String
  prompt : String
  responseText : String
  created : List TmpFile
  deleted : List TmpFile
deriving DecidableEq, Repr

/-- `analyzeAudioFromBase64` over the environment: conversion (which
never aborts — the original temp file always exists for the final
`existsSync(processPath)` check), whisper transcription (a throw aborts),
transcript extraction with sidecar preference (the sidecar is unlinked,
best-effort, whenever its read succeeded), escaping and prompt build,
the Ollama call (a throw or parse failure aborts), then best-effort
unlinks of the payload and of the original audio temp file before the
`response` field is returned.  The `created`/`deleted` fields record
which temp files the run produced and which unlinks it attempted; the
`unlink*Fails` flags are never consulted because every unlink is
`.catch(() => {})`-guarded. -/
def analyzeAudioFromBase64 (env : PipelineEnv) : Except PipeError RunTrace :=
  let conv := convertStage env
  let createdConv : List TmpFile :=
    match conv.processPath with
    | AudioFile.boosted => [TmpFile.audioBoosted]
    | AudioFile.simple => [TmpFile.audioSimple]
    | AudioFile.original => []
  match env.whisperOut with
  | none => Except.error PipeError.whisperFailed
  | some stdoutLines =>
    let transcription := extractTranscript stdoutLines env.sidecar
    let prompt := ollamaPrompt transcription
    match env.ollamaResp with
    | none => Except.error PipeError.ollamaFailed
    | some resp =>
      Except.ok
        { processPath := conv.processPath
          fallbackTried := conv.fallbackTried
          transcription := transcription
          prompt := prompt
          responseText := resp
          created := TmpFile.audioOrig :: createdConv ++ [TmpFile.payload]
              ++ (if env.sidecar.isSome then [TmpFile.sidecarTxt] else [])
          deleted := (if env.sidecar.isSome then [TmpFile.sidecarTxt] else [])
              ++ [TmpFile.payload, TmpFile.audioOrig] }

/-- Whether the run succeeds. -/
def runOk (env : PipelineEnv) : Bool :=
  match analyzeAudioFromBase64 env with
  | Except.ok _ => true
  | Except.error _ => false

/-- The transcription a successful run embeds (empty on failure). -/
def runTranscription (env : PipelineEnv) : String :=
  match analyzeAudioFromBase64 env with
  | Except.ok t => t.transcription
  | Except.error _ => ""

/-- The Ollama prompt of a successful run (empty on failure). -/
def runPrompt (env : PipelineEnv) : String :=
  match analyzeAudioFromBase64 env with
  | Except.ok t => t.prompt
  | Except.error _ => ""

/-- The returned response text of a successful run (empty on failure). -/
def runResponse (env : PipelineEnv) : String :=
  match analyzeAudioFromBase64 env with
  | Except.ok t => t.responseText
  | Except.error _ => ""

/-- The temp files a run created (empty on failure). -/
def runCreated (env : PipelineEnv) : List TmpFile :=
  match analyzeAudioFromBase64 env with
  | Except.ok t => t.created
  | Except.error _ => []

/-- The temp-file unlinks a run attempted before returning (empty on
failure). -/
def runDeleted (env : PipelineEnv) : List TmpFile :=
  match analyzeAudioFromBase64 env with
  | Except.ok t => t.deleted
  | Except.error _ => []

/-! ### Concrete inputs used by the witnesses -/

/-- A mid-session state whose current recorder has just fired `onstop`:
two chunks accumulated, stop in flight, session active. -/
def c1State : SessionState :=
  { sessionActive := true, streamPresent := true, recorder := some RecState.inactive,
    chunks := [1, 2], stopInFlight := true, isSpeaking := false,
    silenceStart := none, noiseFloor := some (1 / 1000) }

/-- A speaking state with the silence timer armed at t = 0 and a
calibrated noise floor, about to be ticked at t = 1600. -/
def c2State : SessionState :=
  { sessionActive := true, streamPresent := true, recorder := some RecState.recording,
    chunks := [], stopInFlight := false, isSpeaking := true,
    silenceStart := some 0, noiseFloor := some (1 / 1000) }

/-- An actively recording state with no stop in flight. -/
def c3State : SessionState :=
  { sessionActive := true, streamPresent := true, recorder := some RecState.recording,
    chunks := [7], stopInFlight := false, isSpeaking := true,
    silenceStart := none, noiseFloor := some (1 / 100) }

/-- A webm run in which every external invocation succeeds and no sidecar
transcript is produced. -/
def c8Env : PipelineEnv :=
  { mimeType := "audio/webm", primaryExec := true, primaryFile := true,
    boostExec := true, boostFile := true, simpleExec := true, simpleFile := true,
    whisperOut := some ["hello there"], sidecar := none,
    ollamaResp := some "A suggestion.", unlinkSidecarFails := false,
    unlinkPayloadFails := false, unlinkAudioFails := false }

/-- A webm run that also produces a sidecar transcript file. -/
def c8SidecarEnv : PipelineEnv :=
  { mimeType := "audio/webm", primaryExec := true, primaryFile := true,
    boostExec := true, boostFile := true, simpleExec := true, simpleFile := true,
    whisperOut := some ["hello there"], sidecar := some " hi \n",
    ollamaResp := some "A suggestion.", unlinkSidecarFails := false,
    unlinkPayloadFails := false, unlinkAudioFails := false }

/-- A fully successful webm run used to exhibit which file the sidecar
path is keyed to. -/
def c7Env : PipelineEnv :=
  { mimeType := "audio/webm", primaryExec := true, primaryFile := true,
    boostExec := true, boostFile := true, simpleExec := true, simpleFile := true,
    whisperOut := some ["hello there"], sidecar := some "hi from sidecar",
    ollamaResp := some "A suggestion.", unlinkSidecarFails := false,
    unlinkPayloadFails := false, unlinkAudioFails := false }

/-- A webm run whose ffmpeg invocations all fail but whose later stages
succeed. -/
def c5Env : PipelineEnv :=
  { mimeType := "audio/webm", primaryExec := false, primaryFile := false,
    boostExec := false, boostFile := false, simpleExec := false, simpleFile := false,
    whisperOut := some ["hello there"], sidecar := none,
    ollamaResp := some "A suggestion.", unlinkSidecarFails := false,
    unlinkPayloadFails := false, unlinkAudioFails := false }

/-- A run in which whisper exits successfully but its stdout holds only
log lines, no sidecar exists, and Ollama answers. -/
def c10Env : PipelineEnv :=
  { mimeType := "audio/webm", primaryExec := true, primaryFile := true,
    boostExec := true, boostFile := true, simpleExec := true, simpleFile := true,
    whisperOut := some ["[BLANK_AUDIO]", "whisper_init: model loaded", "main: processing"],
    sidecar := none, ollamaResp := some "Could you repeat that?",
    unlinkSidecarFails := false, unlinkPayloadFails := false, unlinkAudioFails := false }

/-! ## Theorems -/

/-- C1: when the current recorder's `onstop` callback runs, the
accumulated chunks are dispatched exactly once (an empty buffer dispatches
nothing), the chunk buffer is empty before/when the replacement recorder
is created, and a replacement recorder is created and started iff the
session is still active (an active session always holds the live stream). -/
theorem claim_C1_finalize_then_replace (s : SessionState)
    (hstream : s.sessionActive = true → s.streamPresent = true) :
    (recorderOnStop s).2 = (if s.chunks = [] then [] else [s.chunks]) ∧
    (recorderOnStop s).1.chunks = [] ∧
    ((recorderOnStop s).1.recorder = some RecState.recording ↔ s.sessionActive = true) := by
  unfold recorderOnStop sendAudioForAnalysis
  by_cases hc : s.chunks = [] <;> by_cases ha : s.sessionActive = true
  · have hb := hstream ha
    simp [hc, ha, hb]
  · simp [hc, ha]
  · have hb := hstream ha
    simp [hc, ha, hb]
  · simp [hc, ha]

/-- Witness for C1 at `c1State`. -/
theorem claim_C1_witness :
    (recorderOnStop c1State).2 = [[1, 2]] ∧
    (recorderOnStop c1State).1.chunks = [] ∧
    (recorderOnStop c1State).1.recorder = some RecState.recording := by
  have h := claim_C1_finalize_then_replace c1State (fun _ => rfl)
  refine ⟨?_, h.2.1, h.2.2.mpr rfl⟩
  simpa [c1State] using h.1

/-- The meter tick never changes the noise floor except through the
calibration update at its top. -/
theorem meterTick_noiseFloor (startTs now rms : ℚ) (s : SessionState) :
    (meterTick startTs now rms s).1.noiseFloor = calibrateNF startTs now rms s.noiseFloor := by
  unfold meterTick
  cases hss : s.silenceStart <;> simp [hss] <;> split_ifs <;> rfl

/-- C4: a tick updates the noise floor iff it falls inside the 800 ms
calibration window — the first in-window sample initializes it, each
further in-window sample folds in via `0.9·old + 0.1·sample` — and a tick
at or past the window boundary leaves the noise floor untouched. -/
theorem claim_C4_noise_floor_calibration (startTs now rms : ℚ) (s : SessionState) :
    (now - startTs < CALIBRATION_MS → s.noiseFloor = none →
        (meterTick startTs now rms s).1.noiseFloor = some rms) ∧
    (∀ old, now - startTs < CALIBRATION_MS → s.noiseFloor = some old →
        (meterTick startTs now rms s).1.noiseFloor = some (old * (9 / 10) + rms * (1 / 10))) ∧
    (CALIBRATION_MS ≤ now - startTs →
        (meterTick startTs now rms s).1.noiseFloor = s.noiseFloor) := by
  rw [meterTick_noiseFloor]
  unfold calibrateNF
  refine ⟨fun hin hnf => ?_, fun old hin hnf => ?_, fun hout => ?_⟩
  · simp [hin, hnf]
  · simp [hin, hnf]
  · simp [not_lt.mpr hout]

/-- Witness for C4: an in-window tick folds the sample, an out-of-window
tick leaves the floor frozen. -/
theorem claim_C4_witness :
    (meterTick 0 700 (1 / 200) c2State).1.noiseFloor
        = some ((1 / 1000) * (9 / 10) + (1 / 200) * (1 / 10)) ∧
    (meterTick 0 900 (1 / 200) c2State).1.noiseFloor = some (1 / 1000) := by
  constructor
  · exact (claim_C4_noise_floor_calibration 0 700 (1 / 200) c2State).2.1
      (1 / 1000) (by norm_num [CALIBRATION_MS]) rfl
  · exact (claim_C4_noise_floor_calibration 0 900 (1 / 200) c2State).2.2
      (by norm_num [CALIBRATION_MS])

/-- C3: manual flush is a no-op whenever a stop is already in flight or
no recorder is actively recording; an issued stop leaves `stopInFlight`
set; and two back-to-back flushes issue exactly one stop (hence one
finalize) when the state allows any at all, zero otherwise. -/
theorem claim_C3_manual_flush (s : SessionState) :
    ((s.stopInFlight = true ∨ s.recorder ≠ some RecState.recording) →
        handleManualFlush s = (s, false)) ∧
    ((handleManualFlush s).2 = true → (handleManualFlush s).1.stopInFlight = true) ∧
    stopsAfterTwoFlushes s =
      (if s.recorder = some RecState.recording ∧ s.stopInFlight = false then 1 else 0) := by
  unfold stopsAfterTwoFlushes handleManualFlush
  rcases s with ⟨a, b, rec, ch, fl, sp, ss, nf⟩
  rcases rec with _ | r
  · simp
  · cases r <;> cases fl <;> simp

/-- Witness for C3 at the actively recording state `c3State`: the two
rapid flushes issue exactly one stop, and the state right after the first
flush (stop in flight, recorder stopped) rejects the second. -/
theorem claim_C3_witness :
    stopsAfterTwoFlushes c3State = 1 ∧
    handleManualFlush { c3State with stopInFlight := true } =
      ({ c3State with stopInFlight := true }, false) := by
  have h := claim_C3_manual_flush c3State
  have h' := claim_C3_manual_flush { c3State with stopInFlight := true }
  refine ⟨?_, h'.1 (Or.inl rfl)⟩
  simpa [c3State] using h.2.2

/-- C2: with no stop in flight and an actively recording recorder, a tick
requests a recorder stop exactly when it completes a Speaking → Silent
transition, and that transition happens iff the tick's RMS is at or below
the effective threshold `max(MIN_THRESHOLD_RMS, NoiseFloor·NOISE_MULTIPLIER)`
and the silence timer was armed at least `SILENCE_DURATION_MS` (1500 ms)
ago; an above-threshold tick instead resets the silence timer to none (and
is Speaking), and the first sub-threshold tick while speaking arms the
timer at the current time. -/
theorem claim_C2_vad_transition (startTs now rms : ℚ) (s : SessionState) (T : ℚ)
    (hflight : s.stopInFlight = false)
    (hrec : s.recorder = some RecState.recording)
    (hT : T = max MIN_THRESHOLD_RMS
        ((calibrateNF startTs now rms s.noiseFloor).getD (1 / 1000) * NOISE_MULTIPLIER)) :
    ((meterTick startTs now rms s).2 = true ↔
        (s.isSpeaking = true ∧ rms ≤ T ∧
          ∃ t0, s.silenceStart = some t0 ∧ SILENCE_DURATION_MS ≤ now - t0)) ∧
    ((s.isSpeaking = true ∧ (meterTick startTs now rms s).1.isSpeaking = false) ↔
        (s.isSpeaking = true ∧ rms ≤ T ∧
          ∃ t0, s.silenceStart = some t0 ∧ SILENCE_DURATION_MS ≤ now - t0)) ∧
    (T < rms →
        (meterTick startTs now rms s).1.silenceStart = none ∧
        (meterTick startTs now rms s).1.isSpeaking = true) ∧
    (s.isSpeaking = true → rms ≤ T → s.silenceStart = none →
        (meterTick startTs now rms s).1.silenceStart = some now) := by
  have hT' : effThreshold (calibrateNF startTs now rms s.noiseFloor) = T := by
    rw [hT]; rfl
  unfold meterTick
  by_cases hlt : T < rms
  · have hnle : ¬ rms ≤ T := not_le.mpr hlt
    simp [hT', hlt, hnle]
  · have hle : rms ≤ T := not_lt.mp hlt
    by_cases hsp : s.isSpeaking = true
    · cases hss : s.silenceStart with
      | none => simp [hT', hlt, hsp, hss]
      | some t0 =>
        by_cases hdur : SILENCE_DURATION_MS ≤ now - t0
        · simp [hT', hlt, hsp, hss, hdur, hflight, hrec, hle]
        · simp [hT', hlt, hsp, hss, hdur, hle]
    · simp [hT', hlt, hsp]

/-- Witness for C2 at `c2State`: a sub-threshold tick 1600 ms after the
timer was armed both stops the recorder and leaves the Speaking state,
while an above-threshold tick clears the timer. -/
theorem claim_C2_witness :
    (meterTick 0 1600 0 c2State).2 = true ∧
    (meterTick 0 1600 0 c2State).1.isSpeaking = false ∧
    (meterTick 0 1600 (1 / 10) c2State).1.silenceStart = none := by
  have h1 := claim_C2_vad_transition 0 1600 0 c2State
      (max MIN_THRESHOLD_RMS
        ((calibrateNF 0 1600 0 c2State.noiseFloor).getD (1 / 1000) * NOISE_MULTIPLIER))
      rfl rfl rfl
  have h2 := claim_C2_vad_transition 0 1600 (1 / 10) c2State
      (max MIN_THRESHOLD_RMS
        ((calibrateNF 0 1600 (1 / 10) c2State.noiseFloor).getD (1 / 1000) * NOISE_MULTIPLIER))
      rfl rfl rfl
  refine ⟨h1.1.mpr ⟨rfl, by norm_num [c2State, calibrateNF, CALIBRATION_MS,
        MIN_THRESHOLD_RMS, NOISE_MULTIPLIER], 0, rfl,
        by norm_num [SILENCE_DURATION_MS]⟩,
      ?_, (h2.2.2.1 (by norm_num [c2State, calibrateNF, CALIBRATION_MS,
        MIN_THRESHOLD_RMS, NOISE_MULTIPLIER])).1⟩
  exact (h1.2.1.mpr ⟨rfl, by norm_num [c2State, calibrateNF, CALIBRATION_MS,
        MIN_THRESHOLD_RMS, NOISE_MULTIPLIER], 0, rfl,
        by norm_num [SILENCE_DURATION_MS]⟩).2

/-- Global single-character replacement distributes over concatenation. -/
theorem replaceChar_append (t : Char) (r xs ys : List Char) :
    replaceChar t r (xs ++ ys) = replaceChar t r xs ++ replaceChar t r ys := by
  induction xs with
  | nil => rfl
  | cons c cs ih => simp [replaceChar, ih]

/-- The escape chain distributes over concatenation. -/
theorem escapeChars_append (xs ys : List Char) :
    escapeChars (xs ++ ys) = escapeChars xs ++ escapeChars ys := by
  unfold escapeChars
  simp [replaceChar_append]

/-- On a single character the five sequential passes agree with the
per-character escaping table: later passes never rewrite the backslashes
introduced by earlier ones. -/
theorem escapeChars_singleton (c : Char) : escapeChars [c] = escChar c := by
  by_cases h1 : c = '\\'
  · subst h1; decide
  by_cases h2 : c = '"'
  · subst h2; decide
  by_cases h3 : c = '\n'
  · subst h3; decide
  by_cases h4 : c = '\r'
  · subst h4; decide
  by_cases h5 : c = '\t'
  · subst h5; decide
  simp [escapeChars, replaceChar, escChar, h1, h2, h3, h4, h5]

/-- C6: the sequential replacement chain (backslash first, then quote,
newline, carriage return, tab) escapes every transcript exactly as a
single left-to-right per-character pass would — no character is
double-escaped — and on the concrete transcript `He said "hi"` + newline
it produces `He said \"hi\"` + `\n`. -/
theorem claim_C6_escaping (s : List Char) :
    escapeChars s = escapeOnePass s ∧
    escapeTranscription "He said \"hi\"\n" = "He said \\\"hi\\\"\\n" := by
  refine ⟨?_, by decide⟩
  induction s with
  | nil => rfl
  | cons c cs ih =>
    have : escapeChars ([c] ++ cs) = escapeChars [c] ++ escapeChars cs :=
      escapeChars_append [c] cs
    simp only [List.singleton_append] at this
    rw [this, escapeChars_singleton, ih]
    rfl

/-- The run succeeds exactly when the whisper invocation and the Ollama
round-trip succeed: conversion failures never abort the pipeline. -/
theorem runOk_eq (env : PipelineEnv) :
    runOk env = (env.whisperOut.isSome && env.ollamaResp.isSome) := by
  unfold runOk analyzeAudioFromBase64
  cases env.whisperOut <;> cases env.ollamaResp <;> simp

/-- C5: for non-WAV input whose primary filtered ffmpeg invocation fails
(it throws, or leaves no output file), the simplified fallback command is
attempted; if the fallback fails too, `processPath` stays the original
unconverted file; and in all cases the pipeline only aborts at the
whisper or Ollama stage, never at conversion. -/
theorem claim_C5_converter_fallback (env : PipelineEnv)
    (hext : hasSubstr "webm" env.mimeType = true)
    (hfail : env.primaryExec = false ∨ env.primaryFile = false) :
    (convertStage env).fallbackTried = true ∧
    ((env.simpleExec = false ∨ env.simpleFile = false) →
        (convertStage env).processPath = AudioFile.original) ∧
    runOk env = (env.whisperOut.isSome && env.ollamaResp.isSome) := by
  have hwebm : extOf env.mimeType = "webm" := by
    unfold extOf
    rw [hext]
    rfl
  have hprim : (env.primaryExec && env.primaryFile) = false := by
    rcases hfail with h | h <;> simp [h]
  unfold convertStage
  rw [hwebm]
  refine ⟨?_, fun hs => ?_, runOk_eq env⟩
  · by_cases hsimp : (env.simpleExec && env.simpleFile) = true <;> simp [hprim, hsimp]
  · have hsimp : (env.simpleExec && env.simpleFile) = false := by
      rcases hs with h | h <;> simp [h]
    simp [hprim, hsimp]

/-- Witness for C5 at `c5Env`: every ffmpeg invocation fails, the
fallback is recorded as attempted, the original file is used, and the run
still succeeds. -/
theorem claim_C5_witness :
    (convertStage c5Env).fallbackTried = true ∧
    (convertStage c5Env).processPath = AudioFile.original ∧
    runOk c5Env = true := by
  have h := claim_C5_converter_fallback c5Env (by decide) (Or.inl rfl)
  exact ⟨h.1, h.2.1 (Or.inl rfl), by simpa using h.2.2⟩

/-- A list is a prefix run of itself. -/
theorem isPrefixOfChars_refl (l : List Char) : isPrefixOfChars l l = true := by
  induction l with
  | nil => rfl
  | cons c cs ih => simp [isPrefixOfChars, ih]

/-- First-occurrence replacement of a dot-led pattern that occurs only as
the suffix: the dot-free head is kept and the pattern replaced. -/
theorem replaceOnceChars_no_dot (p repl base : List Char) (hbase : '.' ∉ base) :
    replaceOnceChars ('.' :: p) repl (base ++ '.' :: p) = base ++ repl := by
  induction base with
  | nil =>
    simp [replaceOnceChars, isPrefixOfChars_refl, List.drop_length]
  | cons c cs ih =>
    simp only [List.mem_cons, not_or] at hbase
    have hc : ('.' : Char) ≠ c := hbase.1
    rw [List.cons_append]
    unfold replaceOnceChars
    have hpre : isPrefixOfChars ('.' :: p) (c :: (cs ++ '.' :: p)) = false := by
      unfold isPrefixOfChars
      simp [hc]
    rw [hpre]
    simp only [Bool.false_eq_true, if_false]
    rw [ih hbase.2]
    simp

/-- `dropWhile` skips a block whose every element satisfies the predicate. -/
theorem dropWhile_append_all (p : Char → Bool) (l1 l2 : List Char)
    (h : ∀ x ∈ l1, p x = true) :
    (l1 ++ l2).dropWhile p = l2.dropWhile p := by
  induction l1 with
  | nil => rfl
  | cons x xs ih =>
    have hx := h x (by simp)
    simp only [List.cons_append, List.dropWhile_cons, hx, if_true]
    exact ih fun y hy => h y (by simp [hy])

/-- The base name of `b ++ "." ++ t` is `b` whenever the tail `t` holds
no dot (the appended dot is the last one). -/
theorem baseNameOf_concat (b t : String) (ht : '.' ∉ t.data) :
    baseNameOf (b ++ "." ++ t) = b := by
  unfold baseNameOf
  have hdata : (b ++ "." ++ t).data = b.data ++ '.' :: t.data := by
    rw [String.data_append, String.data_append]
    simp
  rw [hdata, List.reverse_append, List.reverse_cons, List.append_assoc]
  have hall : ∀ x ∈ t.data.reverse, (x != '.') = true := by
    intro x hx
    have hmem : x ∈ t.data := List.mem_reverse.mp hx
    have hne : x ≠ '.' := fun he => ht (he ▸ hmem)
    simp [hne]
  rw [dropWhile_append_all _ _ _ hall]
  simp

/-- The sidecar transcript path derived from the original audio temp
file `base ++ "." ++ ext` (dot-free `base`) is `base ++ ".txt"`. -/
theorem transcriptionFileName_concat (base ext : String) (hbase : '.' ∉ base.data) :
    transcriptionFileName (base ++ "." ++ ext) ext = base ++ ".txt" := by
  unfold transcriptionFileName jsReplaceOnce
  have hpat : ("." ++ ext).data = '.' :: ext.data := by
    rw [String.data_append]
    rfl
  have hsrc : (base ++ "." ++ ext).data = base.data ++ '.' :: ext.data := by
    rw [String.data_append, String.data_append]
    simp
  rw [hpat, hsrc, replaceOnceChars_no_dot ext.data _ base.data hbase]
  apply String.ext
  rw [String.data_append]

/-- C7 counterexample: in the ordinary successful webm run the file
handed to whisper is the boosted WAV (`audio_5_boosted.wav`), while the
sidecar consulted is `audio_5.txt`, keyed to the original temp file —
their base names differ, so the preferred sidecar does not share the
transcribed audio file's base name. -/
theorem claim_C7_counterexample :
    (convertStage c7Env).processPath = AudioFile.boosted ∧
    processPathName "audio_5.webm" "webm" (convertStage c7Env).processPath
      = "audio_5_boosted.wav" ∧
    transcriptionFileName "audio_5.webm" "webm" = "audio_5.txt" ∧
    baseNameOf (transcriptionFileName "audio_5.webm" "webm") ≠
      baseNameOf (processPathName "audio_5.webm" "webm"
        (convertStage c7Env).processPath) := by decide

/-- C7 (amended): a sidecar transcript file with non-empty contents
overrides the stdout parse with its trimmed contents, a missing or empty
sidecar falls back to the stdout parse, and the stdout parse discards
every line that begins with `[` or contains `whisper_` or `main:`; the
sidecar consulted is the one sharing the ORIGINAL audio temp file's base
name (`audioPath` with `.ext` replaced by `.txt`), not the transcribed
(converted/boosted) file's. -/
theorem claim_C7_sidecar_amended (stdoutLines : List String) (c l : String)
    (ls : List String) (base ext : String)
    (hlog : startsWithBracket l = true ∨ hasSubstr "whisper_" l = true ∨
        hasSubstr "main:" l = true)
    (hbase : '.' ∉ base.data)
    (hext : '.' ∉ ext.data) :
    (c ≠ "" → extractTranscript stdoutLines (some c) = jsTrim c) ∧
    extractTranscript stdoutLines none = parseStdout stdoutLines ∧
    extractTranscript stdoutLines (some "") = parseStdout stdoutLines ∧
    parseStdout (l :: ls) = parseStdout ls ∧
    transcriptionFileName (base ++ "." ++ ext) ext = base ++ ".txt" ∧
    baseNameOf (transcriptionFileName (base ++ "." ++ ext) ext)
      = baseNameOf (base ++ "." ++ ext) := by
  have hkeep : keepLine l = false := by
    unfold keepLine
    rcases hlog with h | h | h <;> simp [h]
  have hname := transcriptionFileName_concat base ext hbase
  refine ⟨fun hc => ?_, rfl, by simp [extractTranscript], ?_, hname, ?_⟩
  · simp [extractTranscript, hc]
  · simp [parseStdout, joinKeptLines, hkeep]
  · rw [hname, baseNameOf_concat base ext hext]
    have : (base ++ ".txt") = (base ++ "." ++ "txt") := by
      rw [String.append_assoc]
      rfl
    rw [this, baseNameOf_concat base "txt" (by decide)]

/-- Witness for the amended C7: the non-empty sidecar wins (trimmed),
log lines are dropped, and for `audio_5.webm` the consulted sidecar is
`audio_5.txt`, sharing the original temp file's base name. -/
theorem claim_C7_sidecar_amended_witness :
    extractTranscript ["hello world"] (some " hi there \n") = "hi there" ∧
    extractTranscript ["hello world"] none = parseStdout ["hello world"] ∧
    parseStdout ["whisper_init: ok", "hello world"] = parseStdout ["hello world"] ∧
    transcriptionFileName ("audio_5" ++ "." ++ "webm") "webm" = "audio_5" ++ ".txt" ∧
    baseNameOf (transcriptionFileName ("audio_5" ++ "." ++ "webm") "webm")
      = baseNameOf ("audio_5" ++ "." ++ "webm") := by
  have h := claim_C7_sidecar_amended ["hello world"] " hi there \n"
      "whisper_init: ok" ["hello world"] "audio_5" "webm"
      (Or.inr (Or.inl (by decide))) (by decide) (by decide)
  refine ⟨?_, h.2.1, h.2.2.2.1, h.2.2.2.2.1, h.2.2.2.2.2⟩
  rw [h.1 (by decide)]
  decide

/-- The unlink-failure flags never influence the run: every `unlink` is
`.catch(() => {})`-guarded, so a failed deletion is not surfaced. -/
theorem analyze_ignores_unlink_failures (env : PipelineEnv) :
    analyzeAudioFromBase64 (withFailingUnlinks env) = analyzeAudioFromBase64 env := by
  cases env
  rfl

/-- C8 counterexample: a successful webm run creates the boosted WAV but
never deletes it before returning, contradicting the claim that all
intermediate files including the converted/boosted audio are deleted. -/
theorem claim_C8_counterexample :
    runOk c8Env = true ∧
    TmpFile.audioBoosted ∈ runCreated c8Env ∧
    TmpFile.audioBoosted ∉ runDeleted c8Env := by decide

/-- C8 (amended): on every successful run the inference payload file and
the original audio temp file are unlink-attempted before the result is
returned, the transcript sidecar is unlink-attempted whenever it was
present, deletion failures are never surfaced (the run's outcome and
response are unchanged when every unlink fails) — but the
converted/boosted audio file is never deleted. -/
theorem claim_C8_cleanup_amended (env : PipelineEnv) (h : runOk env = true) :
    TmpFile.payload ∈ runDeleted env ∧
    TmpFile.audioOrig ∈ runDeleted env ∧
    (env.sidecar.isSome = true → TmpFile.sidecarTxt ∈ runDeleted env) ∧
    TmpFile.audioBoosted ∉ runDeleted env ∧
    TmpFile.audioSimple ∉ runDeleted env ∧
    runOk (withFailingUnlinks env) = true ∧
    runResponse (withFailingUnlinks env) = runResponse env := by
  have hok : (env.whisperOut.isSome && env.ollamaResp.isSome) = true := by
    rw [← runOk_eq env]
    exact h
  have hw : env.whisperOut.isSome = true := ((Bool.and_eq_true _ _).mp hok).1
  have ho : env.ollamaResp.isSome = true := ((Bool.and_eq_true _ _).mp hok).2
  obtain ⟨lines, hlines⟩ := Option.isSome_iff_exists.mp hw
  obtain ⟨resp, hresp⟩ := Option.isSome_iff_exists.mp ho
  have hdel : runDeleted env =
      (if env.sidecar.isSome then [TmpFile.sidecarTxt] else [])
        ++ [TmpFile.payload, TmpFile.audioOrig] := by
    unfold runDeleted analyzeAudioFromBase64
    rw [hlines, hresp]
  have hflagsOk : runOk (withFailingUnlinks env) = runOk env := by
    unfold runOk
    rw [analyze_ignores_unlink_failures]
  have hflagsResp : runResponse (withFailingUnlinks env) = runResponse env := by
    unfold runResponse
    rw [analyze_ignores_unlink_failures]
  refine ⟨?_, ?_, fun hsc => ?_, ?_, ?_, hflagsOk.trans h, hflagsResp⟩ <;>
    rw [hdel] <;> cases hside : env.sidecar.isSome <;> simp_all

/-- Witness for the amended C8 at `c8SidecarEnv` (sidecar present). -/
theorem claim_C8_cleanup_amended_witness :
    TmpFile.payload ∈ runDeleted c8SidecarEnv ∧
    TmpFile.audioOrig ∈ runDeleted c8SidecarEnv ∧
    TmpFile.sidecarTxt ∈ runDeleted c8SidecarEnv ∧
    TmpFile.audioBoosted ∉ runDeleted c8SidecarEnv ∧
    TmpFile.audioSimple ∉ runDeleted c8SidecarEnv ∧
    runOk (withFailingUnlinks c8SidecarEnv) = true ∧
    runResponse (withFailingUnlinks c8SidecarEnv) = runResponse c8SidecarEnv := by
  have h := claim_C8_cleanup_amended c8SidecarEnv (by decide)
  exact ⟨h.1, h.2.1, h.2.2.1 rfl, h.2.2.2.1, h.2.2.2.2.1, h.2.2.2.2.2.1,
    h.2.2.2.2.2.2⟩

/-- A hit of `indexOfAux` lies at or past the offset and points at the
searched character. -/
theorem indexOfAux_le_and_get (c : Char) (xs : List Char) (k j : Nat)
    (h : indexOfAux c xs k = some j) : k ≤ j ∧ xs.get? (j - k) = some c := by
  induction xs generalizing k with
  | nil => simp [indexOfAux] at h
  | cons x xs ih =>
    unfold indexOfAux at h
    by_cases hx : x = c
    · rw [if_pos hx] at h
      injection h with h1
      subst h1
      exact ⟨le_refl _, by simp [Nat.sub_self, hx]⟩
    · rw [if_neg hx] at h
      obtain ⟨hk, hget⟩ := ih (k + 1) h
      refine ⟨by omega, ?_⟩
      have hjk : j - k = (j - (k + 1)) + 1 := by omega
      rw [hjk]
      simpa using hget

/-- `indexOfFrom` finds an occurrence of the character at or past the
start offset. -/
theorem indexOfFrom_spec (s : List Char) (c : Char) (start j : Nat)
    (h : indexOfFrom s c start = some j) : start ≤ j ∧ s.get? j = some c := by
  obtain ⟨hk, hget⟩ := indexOfAux_le_and_get c (s.drop start) start j h
  refine ⟨hk, ?_⟩
  have h2 : s.get? (start + (j - start)) = some c := by
    rw [← List.get?_drop]
    exact hget
  rwa [show start + (j - start) = j by omega] at h2

/-- C9: whenever the candidate cut point of a reveal step lands inside a
word (both its neighbours are non-space characters) and the next space
lies within 10 characters, the step extends the cut exactly to that
space — the yielded prefix ends at a word boundary; and over the concrete
text `"hello world testing"` no yielded cut ever ends mid-word while a
following space is within 10 characters. -/
theorem claim_C9_word_boundary (s : List Char) (i j : Nat)
    (h1 : s.get? (candidateIndex s i) ≠ none)
    (h2 : s.get? (candidateIndex s i) ≠ some ' ')
    (h3 : s.get? (candidateIndex s i - 1) ≠ some ' ')
    (h4 : indexOfFrom s ' ' (candidateIndex s i) = some j)
    (h5 : j - candidateIndex s i < 10) :
    revealStep s i = j ∧ s.get? j = some ' ' ∧
    (((List.range 21).map (revealSeq helloText)).all
        (fun a => !(endsMidWord helloText a && spaceWithin10 helloText a))) = true := by
  refine ⟨?_, (indexOfFrom_spec s ' ' _ j h4).2, by decide⟩
  unfold candidateIndex at h1 h2 h3 h4 h5
  have hlen : min (i + charsToAddAt s.length i) s.length < s.length := by
    by_contra hge
    push_neg at hge
    exact h1 (List.get?_eq_none.mpr hge)
  have hn : min (i + charsToAddAt s.length i) s.length = i + charsToAddAt s.length i := by
    omega
  rw [hn] at h1 h2 h3 h4 h5
  obtain ⟨nc, hnc⟩ := Option.ne_none_iff_exists'.mp h1
  have hncs : nc ≠ ' ' := fun he => h2 (he ▸ hnc)
  simp only [revealStep]
  rw [hn]
  simp only [hnc]
  rw [if_pos ⟨hncs, h3⟩]
  simp only [h4]
  rw [if_pos h5]

/-- Witness for C9 on `"hello world testing"` at index 0: the candidate
cut at 1 lands inside `hello`, the next space is at 5, within 10, and
the step extends the cut to it. -/
theorem claim_C9_witness :
    revealStep helloText 0 = 5 ∧ helloText.get? 5 = some ' ' := by
  have h := claim_C9_word_boundary helloText 0 5 (by decide) (by decide) (by decide)
      (by decide) (by decide)
  exact ⟨h.1, h.2.1⟩

/-- Dropping every line of the stdout leaves an empty accumulation. -/
theorem joinKeptLines_all_dropped (lines : List String)
    (h : ∀ l ∈ lines, keepLine l = false) : joinKeptLines lines = "" := by
  induction lines with
  | nil => rfl
  | cons l ls ih =>
    have hl := h l (by simp)
    have hrest := ih fun x hx => h x (by simp [hx])
    simp [joinKeptLines, hl, hrest]

/-- C10: when whisper exits successfully but its stdout holds only log
lines (each begins with `[` or contains `whisper_` or `main:`) and no
sidecar transcript exists, the run does not fail at the transcription
stage: it proceeds with the empty transcription, embeds it in the Ollama
prompt, and returns the inference server's `response` field. -/
theorem claim_C10_empty_transcript (env : PipelineEnv) (lines : List String) (r : String)
    (hw : env.whisperOut = some lines)
    (hlines : ∀ l ∈ lines, startsWithBracket l = true ∨
        hasSubstr "whisper_" l = true ∨ hasSubstr "main:" l = true)
    (hsc : env.sidecar = none)
    (ho : env.ollamaResp = some r) :
    runOk env = true ∧
    runTranscription env = "" ∧
    runPrompt env = ollamaPrompt "" ∧
    runResponse env = r := by
  have hkeep : ∀ l ∈ lines, keepLine l = false := by
    intro l hl
    rcases hlines l hl with h | h | h <;> simp [keepLine, h]
  have htr : extractTranscript lines env.sidecar = "" := by
    rw [hsc]
    unfold extractTranscript parseStdout
    rw [joinKeptLines_all_dropped lines hkeep]
    rfl
  unfold runOk runTranscription runPrompt runResponse analyzeAudioFromBase64
  rw [hw, ho]
  simp [htr]

/-- Witness for C10 at `c10Env`. -/
theorem claim_C10_witness :
    runOk c10Env = true ∧
    runTranscription c10Env = "" ∧
    runPrompt c10Env = ollamaPrompt "" ∧
    runResponse c10Env = "Could you repeat that?" :=
  claim_C10_empty_transcript c10Env
    ["[BLANK_AUDIO]", "whisper_init: model loaded", "main: processing"]
    "Could you repeat that?" rfl (by decide) rfl rfl

end KroCrm
